import Mathlib

/-!
Shallow embedding of the secure-gps-tracker backend (Express + SQLite).
The four tables (users, otps, locations, permissions) become lists of
records; each HTTP handler becomes a pure function from request data and
the current time to a response value and an updated database state.
External collaborators (DNS MX resolver, SMTP delivery, the random code
generator) are passed in as explicit parameters.
-/

namespace Tracker

/-- Row of the otps table. -/
structure OtpRecord where
  id : Nat
  email : String
  code : String
  expiresAt : Nat
  consumed : Bool
  createdAt : Nat
  deriving DecidableEq, Repr

/-- Row of the users table. -/
structure UserRec where
  id : Nat
  email : String
  is_verified : Bool
  role : String
  deriving DecidableEq, Repr

/-- Row of the locations table. -/
structure LocationRec where
  id : Nat
  email : String
  lat : Int
  lng : Int
  updatedAt : Nat
  deriving DecidableEq, Repr

/-- Row of the permissions table (UNIQUE on viewer_email, sharer_email). -/
structure PermRec where
  id : Nat
  viewer_email : String
  sharer_email : String
  granted : Bool
  createdAt : Nat
  deriving DecidableEq, Repr

/-- The whole SQLite database, plus the next AUTOINCREMENT id per table. -/
structure DB where
  users : List UserRec
  otps : List OtpRecord
  locations : List LocationRec
  permissions : List PermRec
  nextUserId : Nat
  nextOtpId : Nat
  nextLocId : Nat
  nextPermId : Nat
  deriving DecidableEq, Repr

/-- Payload of a signed JWT: sub/email and role, as put there by signToken. -/
structure Token where
  email : String
  role : String
  deriving DecidableEq, Repr

/-- Response of POST /request-otp. -/
inductive RequestResult where
  | emailRequired
  | invalidEmailFormat
  | invalidEmailDomain
  | otpSent
  | emailFailed
  deriving DecidableEq, Repr

/-- Response of POST /verify-otp. The ok case carries the signed token and
the response fields user.email and user.role. -/
inductive VerifyResult where
  | emailAndOtpRequired
  | noOtpRequested
  | otpExpired
  | invalidOtp
  | internalError
  | ok (token : Token) (email : String) (role : String)
  deriving DecidableEq, Repr

/-- Response of POST /locations. -/
inductive PostLocResult where
  | onlySharersCanPost
  | latAndLngRequired
  | locationSaved
  deriving DecidableEq, Repr

/-- Response of GET /locations/:email. -/
inductive GetLocResult where
  | onlyViewersCanFetch
  | noPermission
  | noLocationFound
  | found (email : String) (lat lng : Int) (updatedAt : Nat)
  deriving DecidableEq, Repr

/-- Response of POST /permissions/grant. -/
inductive GrantResult where
  | onlySharersCanGrant
  | viewerEmailRequired
  | granted
  deriving DecidableEq, Repr

/-- JSON body of POST /locations; lat and lng are present only when the
request supplied numbers, and email is any extra field the caller sends. -/
structure LocationBody where
  lat : Option Int
  lng : Option Int
  email : Option String
  deriving DecidableEq, Repr

/-- One character class of the validation regex: not whitespace, not at-sign. -/
def okChar (c : Char) : Bool := !c.isWhitespace && !(c == '@')

/-- The regex test from isValidEmailFormat: a nonempty run of characters
that are neither whitespace nor at-sign, one at-sign, then a domain part of
such characters containing a dot that is neither its first nor its last
character. -/
def isValidEmailFormat (s : String) : Bool :=
  let cs := s.toList
  let a := cs.takeWhile (fun c => !(c == '@'))
  match cs.dropWhile (fun c => !(c == '@')) with
  | [] => false
  | _ :: d =>
    !a.isEmpty && a.all okChar && d.all okChar && ((d.drop 1).dropLast.contains '.')

/-- domainHasMX: take the segment after the first at-sign, fail when it is
absent or empty, then ask the resolver; a resolver exception is the none
case and counts as no MX records. -/
def domainHasMX (resolveMx : String → Option (List Nat)) (email : String) : Bool :=
  match (email.splitOn "@")[1]? with
  | none => false
  | some d =>
    if d == "" then false
    else match resolveMx d with
      | none => false
      | some records => decide (0 < records.length)

/-- UPDATE otps SET consumed = 1 WHERE id = i, applied to one row. -/
def consumeId (i : Nat) (q : OtpRecord) : OtpRecord :=
  if q.id = i then { q with consumed := true } else q

/-- ORDER BY id DESC LIMIT 1: the row with the largest id, if any. -/
def maxById : List OtpRecord → Option OtpRecord
  | [] => none
  | r :: rs =>
    match maxById rs with
    | none => some r
    | some m => if r.id < m.id then some m else some r

/-- SELECT * FROM otps WHERE email = ? AND consumed = 0 ORDER BY id DESC LIMIT 1. -/
def latestUnconsumed (l : List OtpRecord) (e : String) : Option OtpRecord :=
  maxById (l.filter (fun r => r.email == e && !r.consumed))

/-- SELECT * FROM users WHERE email = ? (email is UNIQUE). -/
def findUser (users : List UserRec) (e : String) : Option UserRec :=
  users.find? (fun u => u.email == e)

/-- signToken embeds the user email and role into the JWT payload. -/
def signToken (u : UserRec) : Token := ⟨u.email, u.role⟩

/-- finalRole = role === viewer ? viewer : sharer. -/
def finalRoleOf (role : Option String) : String :=
  if role == some "viewer" then "viewer" else "sharer"

/-- Tail of the verify-otp handler: re-read the user and answer with the
token and user object; the user always exists here at runtime, and a
missing row would crash the handler (internalError). -/
def respondVerify (e : String) (db : DB) : VerifyResult × DB :=
  match findUser db.users e with
  | none => (.internalError, db)
  | some u => (.ok (signToken u) e u.role, db)

/-- Success path of the verify-otp handler after the code matched record r:
mark r consumed, then insert the user or patch is_verified and a falsy
role, then respond from the re-read row. -/
def verifySuccess (e : String) (role : Option String) (r : OtpRecord) (db : DB) :
    VerifyResult × DB :=
  let db1 : DB := { db with otps := db.otps.map (consumeId r.id) }
  let fr := finalRoleOf role
  match findUser db1.users e with
  | none =>
    respondVerify e
      { db1 with
        users := db1.users ++ [⟨db1.nextUserId, e, true, fr⟩],
        nextUserId := db1.nextUserId + 1 }
  | some u0 =>
    let users1 :=
      if u0.is_verified then db1.users
      else db1.users.map (fun v => if v.email == e then { v with is_verified := true } else v)
    let users2 :=
      if u0.role == "" then
        users1.map (fun v => if v.email == e then { v with role := fr } else v)
      else users1
    respondVerify e { db1 with users := users2 }

/-- POST /verify-otp handler. -/
def verifyOtp (now : Nat) (email otp role : Option String) (db : DB) :
    VerifyResult × DB :=
  match email, otp with
  | some e, some o =>
    if e == "" || o == "" then (.emailAndOtpRequired, db)
    else
      match latestUnconsumed db.otps e with
      | none => (.noOtpRequested, db)
      | some r =>
        if r.expiresAt < now then (.otpExpired, db)
        else if !(o == r.code) then (.invalidOtp, db)
        else verifySuccess e role r db
  | _, _ => (.emailAndOtpRequired, db)

/-- POST /request-otp handler. The third component lists the emails the
handler attempted to send, each with the code it carried. -/
def requestOtp (now ttl : Nat) (email : Option String)
    (resolveMx : String → Option (List Nat)) (code : String) (sendOk : Bool)
    (db : DB) : RequestResult × DB × List (String × String) :=
  match email with
  | none => (.emailRequired, db, [])
  | some e =>
    if e == "" then (.emailRequired, db, [])
    else if !isValidEmailFormat e then (.invalidEmailFormat, db, [])
    else if !domainHasMX resolveMx e then (.invalidEmailDomain, db, [])
    else
      let db1 : DB :=
        { db with
          otps := db.otps ++ [⟨db.nextOtpId, e, code, now + ttl * 1000, false, now⟩],
          nextOtpId := db.nextOtpId + 1 }
      if sendOk then (.otpSent, db1, [(e, code)])
      else (.emailFailed, db1, [(e, code)])

/-- SELECT 1 FROM permissions WHERE viewer_email = ? AND sharer_email = ?
AND granted = 1 LIMIT 1. -/
def hasPermission (l : List PermRec) (viewer sharer : String) : Bool :=
  l.any (fun p => p.viewer_email == viewer && p.sharer_email == sharer && p.granted)

/-- Strict comparison matching ORDER BY updatedAt DESC, id DESC: r sorts
before m. -/
def locBeats (r m : LocationRec) : Bool :=
  m.updatedAt < r.updatedAt || (m.updatedAt == r.updatedAt && m.id < r.id)

/-- ORDER BY updatedAt DESC, id DESC LIMIT 1 over a list of rows. -/
def latestLocation : List LocationRec → Option LocationRec
  | [] => none
  | r :: rs =>
    match latestLocation rs with
    | none => some r
    | some m => if locBeats r m then some r else some m

/-- GET /locations/:email handler (after token verification). -/
def getLocation (tok : Token) (sharerEmail : String) (db : DB) : GetLocResult :=
  if !(tok.role == "viewer") then .onlyViewersCanFetch
  else if !hasPermission db.permissions tok.email sharerEmail then .noPermission
  else
    match latestLocation (db.locations.filter (fun r => r.email == sharerEmail)) with
    | none => .noLocationFound
    | some r => .found r.email r.lat r.lng r.updatedAt

/-- POST /locations handler (after token verification): the row is stored
under the email of the verified token, never under anything in the body. -/
def postLocation (now : Nat) (tok : Token) (body : LocationBody) (db : DB) :
    PostLocResult × DB :=
  if !(tok.role == "sharer") then (.onlySharersCanPost, db)
  else
    match body.lat, body.lng with
    | some la, some ln =>
      (.locationSaved,
        { db with
          locations := db.locations ++ [⟨db.nextLocId, tok.email, la, ln, now⟩],
          nextLocId := db.nextLocId + 1 })
    | _, _ => (.latAndLngRequired, db)

/-- The UNIQUE (viewer_email, sharer_email) key of a permission row. -/
def pairPred (viewer sharer : String) (p : PermRec) : Bool :=
  p.viewer_email == viewer && p.sharer_email == sharer

/-- DO UPDATE SET granted = 1, applied to one row of the permissions table. -/
def upsertRow (viewer sharer : String) (p : PermRec) : PermRec :=
  if pairPred viewer sharer p then { p with granted := true } else p

/-- POST /permissions/grant handler (after token verification): an upsert,
INSERT ... ON CONFLICT(viewer_email, sharer_email) DO UPDATE SET granted = 1. -/
def grantPermission (now : Nat) (tok : Token) (viewerEmail : Option String)
    (db : DB) : GrantResult × DB :=
  if !(tok.role == "sharer") then (.onlySharersCanGrant, db)
  else
    match viewerEmail with
    | none => (.viewerEmailRequired, db)
    | some v =>
      if v == "" then (.viewerEmailRequired, db)
      else if db.permissions.any (pairPred v tok.email) then
        (.granted,
          { db with permissions := db.permissions.map (upsertRow v tok.email) })
      else
        (.granted,
          { db with
            permissions := db.permissions ++ [⟨db.nextPermId, v, tok.email, true, now⟩],
            nextPermId := db.nextPermId + 1 })

/-- True exactly on the ok response of verify-otp. -/
def VerifyResult.isOk : VerifyResult → Bool
  | .ok _ _ _ => true
  | _ => false

/-- An empty database with all id counters at 1. -/
def emptyDB : DB := ⟨[], [], [], [], 1, 1, 1, 1⟩

/-- A database holding one fresh unconsumed OTP record for a@b.com. -/
def dbOneOtp : DB :=
  { emptyDB with otps := [⟨1, "a@b.com", "123456", 100, false, 0⟩], nextOtpId := 2 }

/-- A database holding two unconsumed OTP records for a@b.com. -/
def dbTwoOtps : DB :=
  { emptyDB with
    otps := [⟨1, "a@b.com", "123456", 100, false, 0⟩,
             ⟨2, "a@b.com", "654321", 1000, false, 5⟩],
    nextOtpId := 3 }

/-- The state after verifying the newest code of dbTwoOtps with no
requested role. -/
def dbTwoOtps1 : DB :=
  (verifyOtp 10 (some "a@b.com") (some "654321") none dbTwoOtps).2

/-! ### Helper lemmas about the row-selection functions -/

theorem maxById_mem {l : List OtpRecord} {q : OtpRecord} (h : maxById l = some q) :
    q ∈ l := by
  induction l with
  | nil => simp [maxById] at h
  | cons r rs ih =>
    simp only [maxById] at h
    cases hm : maxById rs with
    | none => rw [hm] at h; simp at h; simp [h]
    | some m =>
      rw [hm] at h
      by_cases hlt : r.id < m.id
      · simp [hlt] at h
        exact List.mem_cons_of_mem r (ih (h ▸ hm))
      · simp [hlt] at h
        simp [h]

theorem latestUnconsumed_spec {l : List OtpRecord} {e : String} {q : OtpRecord}
    (h : latestUnconsumed l e = some q) :
    q ∈ l ∧ q.email = e ∧ q.consumed = false := by
  have hmem := maxById_mem h
  rw [List.mem_filter] at hmem
  obtain ⟨h1, h2⟩ := hmem
  simp only [Bool.and_eq_true, beq_iff_eq, Bool.not_eq_true'] at h2
  exact ⟨h1, h2.1, h2.2⟩

theorem verifySuccess_otps (e : String) (role : Option String) (r : OtpRecord)
    (db : DB) :
    ((verifySuccess e role r db).2).otps = db.otps.map (consumeId r.id) := by
  unfold verifySuccess respondVerify
  dsimp only
  split
  · split
    · rfl
    · rfl
  · split
    · rfl
    · rfl

/-- Inversion of a successful verify-otp call: the presence checks passed,
the most recent unconsumed record for the email exists, is unexpired, and
its code equals the submitted code, and the call went through the success
path. -/
theorem verifyOtp_ok_elim {now : Nat} {e o : String} {role : Option String}
    {db : DB} {t : Token} {em ro : String} {db1 : DB}
    (h : verifyOtp now (some e) (some o) role db = (.ok t em ro, db1)) :
    ¬e = "" ∧ ¬o = "" ∧
      ∃ r, latestUnconsumed db.otps e = some r ∧ ¬r.expiresAt < now ∧
        o = r.code ∧ verifySuccess e role r db = (.ok t em ro, db1) := by
  simp only [verifyOtp] at h
  split at h
  · simp at h
  · rename_i hpres
    simp only [Bool.or_eq_true, beq_iff_eq] at hpres
    push_neg at hpres
    split at h
    · simp at h
    · rename_i r hr
      split at h
      · simp at h
      · rename_i hexp
        split at h
        · simp at h
        · rename_i hcode
          simp only [Bool.not_eq_true', beq_eq_false_iff_ne, ne_eq,
            Decidable.not_not] at hcode
          exact ⟨hpres.1, hpres.2, r, hr, hexp, hcode, h⟩

/-! ### Claim theorems -/

/-- Claim C4: a viewer holding a token whose email has no granted=true
permission row toward the target sharer gets noPermission from
GetLocation, a response that carries no location data, even when location
rows for that sharer exist in the database. -/
theorem getLocation_no_grant_no_permission (tok : Token) (sharerEmail : String)
    (db : DB) (hv : tok.role = "viewer")
    (hnp : ∀ p ∈ db.permissions,
      p.viewer_email = tok.email → p.sharer_email = sharerEmail → p.granted = false) :
    getLocation tok sharerEmail db = .noPermission := by
  have hperm : hasPermission db.permissions tok.email sharerEmail = false := by
    rw [hasPermission, List.any_eq_false]
    intro p hp hcon
    simp only [Bool.and_eq_true, beq_iff_eq] at hcon
    obtain ⟨⟨h1, h2⟩, h3⟩ := hcon
    rw [hnp p hp h1 h2] at h3
    exact Bool.false_ne_true h3
  simp [getLocation, hv, hperm]

/-- Witness for C4: a database holding a location row for the sharer but no
grant; the viewer gets noPermission. -/
theorem getLocation_no_grant_no_permission_witness :
    getLocation ⟨"v@y.com", "viewer"⟩ "s@x.com"
      { emptyDB with locations := [⟨1, "s@x.com", 10, 20, 5⟩] } = .noPermission :=
  getLocation_no_grant_no_permission ⟨"v@y.com", "viewer"⟩ "s@x.com"
    { emptyDB with locations := [⟨1, "s@x.com", 10, 20, 5⟩] } (by decide)
    (by intro p hp; simp [emptyDB] at hp)

/-- Claim C9: a location posted with a valid sharer token is appended under
the email of the token; the body, whatever email field it carries, cannot
change the row's email. -/
theorem postLocation_uses_token_email (now : Nat) (tok : Token) (la ln : Int)
    (bodyEmail : Option String) (db : DB) (hs : tok.role = "sharer") :
    (postLocation now tok ⟨some la, some ln, bodyEmail⟩ db).1 = .locationSaved ∧
      (postLocation now tok ⟨some la, some ln, bodyEmail⟩ db).2.locations =
        db.locations ++ [⟨db.nextLocId, tok.email, la, ln, now⟩] := by
  simp [postLocation, hs]

/-- Witness for C9: a body carrying a foreign email field still stores the
row under the token email. -/
theorem postLocation_uses_token_email_witness :
    (postLocation 7 ⟨"s@x.com", "sharer"⟩ ⟨some 10, some 20, some "evil@x.com"⟩
        emptyDB).1 = .locationSaved ∧
      (postLocation 7 ⟨"s@x.com", "sharer"⟩ ⟨some 10, some 20, some "evil@x.com"⟩
          emptyDB).2.locations =
        emptyDB.locations ++ [⟨emptyDB.nextLocId, "s@x.com", 10, 20, 7⟩] :=
  postLocation_uses_token_email 7 ⟨"s@x.com", "sharer"⟩ 10 20 (some "evil@x.com")
    emptyDB (by decide)

/-- Claim C8: when the most recent unconsumed record for the email has
expired (its expiry is strictly before the current time), VerifyOtp
answers otpExpired for every submitted code, the matching one included, and
leaves the database, so also the consumed flag of the record, unchanged. -/
theorem verifyOtp_expired (now : Nat) (e c : String) (role : Option String)
    (db : DB) (r : OtpRecord) (he : e ≠ "") (hc : c ≠ "")
    (hlu : latestUnconsumed db.otps e = some r) (hexp : r.expiresAt < now) :
    verifyOtp now (some e) (some c) role db = (.otpExpired, db) := by
  simp [verifyOtp, he, hc, hlu, hexp]

/-- Witness for C8: at time 200 a record that expired at 100 is rejected as
otpExpired even though the submitted code matches, and the state is
untouched. -/
theorem verifyOtp_expired_witness :
    verifyOtp 200 (some "a@b.com") (some "123456") none dbOneOtp =
      (.otpExpired, dbOneOtp) :=
  verifyOtp_expired 200 "a@b.com" "123456" none dbOneOtp
    ⟨1, "a@b.com", "123456", 100, false, 0⟩
    (by decide) (by decide) (by decide) (by decide)

/-- Claim C2: there is a state holding two unconsumed, unexpired OTP
records for one email in which VerifyOtp with the older record's code
succeeds (the retry duplication leaves the older code usable). -/
theorem older_otp_code_still_consumable :
    ∃ (db : DB) (now : Nat) (rOld rNew : OtpRecord),
      rOld ∈ db.otps ∧ rNew ∈ db.otps ∧ rOld.email = rNew.email ∧
      rOld.id < rNew.id ∧ rOld.consumed = false ∧ rNew.consumed = false ∧
      now ≤ rOld.expiresAt ∧ now ≤ rNew.expiresAt ∧
      ((verifyOtp now (some rOld.email) (some rOld.code) none db).1).isOk = true := by
  refine ⟨{ emptyDB with
      otps := [⟨1, "a@b.com", "123456", 100, false, 0⟩,
               ⟨2, "a@b.com", "123456", 200, false, 50⟩],
      nextOtpId := 3 },
    60, ⟨1, "a@b.com", "123456", 100, false, 0⟩,
    ⟨2, "a@b.com", "123456", 200, false, 50⟩, ?_⟩
  decide

/-- Counterexample to C7 as stated: the empty string fails the shape check,
yet request-otp answers emailRequired for it, not invalidEmailFormat,
because the presence guard runs first. -/
theorem requestOtp_empty_email_not_format_error :
    isValidEmailFormat "" = false ∧
    (requestOtp 0 600 (some "") (fun _ => none) "123456" true emptyDB).1 =
      .emailRequired ∧
    (requestOtp 0 600 (some "") (fun _ => none) "123456" true emptyDB).1 ≠
      .invalidEmailFormat := by
  refine ⟨by decide, rfl, by decide⟩

/-- Claim C7 (amended to non-empty emails): for every supplied non-empty
email failing the shape check, request-otp answers invalidEmailFormat; for
every valid-shaped email whose domain yields no MX records, resolver
failure included, it answers invalidEmailDomain; in both cases the
database is unchanged and no email is sent. -/
theorem requestOtp_validation_short_circuit (now ttl : Nat) (e : String)
    (resolveMx : String → Option (List Nat)) (code : String) (sendOk : Bool)
    (db : DB) (he : e ≠ "") :
    (isValidEmailFormat e = false →
      requestOtp now ttl (some e) resolveMx code sendOk db =
        (.invalidEmailFormat, db, [])) ∧
    (isValidEmailFormat e = true → domainHasMX resolveMx e = false →
      requestOtp now ttl (some e) resolveMx code sendOk db =
        (.invalidEmailDomain, db, [])) := by
  constructor
  · intro hfmt
    simp [requestOtp, he, hfmt]
  · intro hfmt hmx
    simp [requestOtp, he, hfmt, hmx]

/-- Witness for C7: a well-shaped email whose resolver always fails ends in
invalidEmailDomain with nothing stored and nothing sent. -/
theorem requestOtp_validation_short_circuit_witness :
    (isValidEmailFormat "a@b.com" = false →
      requestOtp 0 600 (some "a@b.com") (fun _ => none) "123456" true emptyDB =
        (.invalidEmailFormat, emptyDB, [])) ∧
    (isValidEmailFormat "a@b.com" = true →
      domainHasMX (fun _ => none) "a@b.com" = false →
      requestOtp 0 600 (some "a@b.com") (fun _ => none) "123456" true emptyDB =
        (.invalidEmailDomain, emptyDB, [])) :=
  requestOtp_validation_short_circuit 0 600 "a@b.com" (fun _ => none) "123456"
    true emptyDB (by decide)

/-- Success path of verify-otp on an email with no user row: the new user
row is appended with the final role computed from the requested role, and
the response carries exactly that role. -/
theorem verifySuccess_new {e : String} {role : Option String} {r : OtpRecord}
    {db : DB} {t : Token} {em ro : String} {db1 : DB}
    (hnone : findUser db.users e = none)
    (hvs : verifySuccess e role r db = (.ok t em ro, db1)) :
    db1.users = db.users ++ [⟨db.nextUserId, e, true, finalRoleOf role⟩] ∧
      ro = finalRoleOf role ∧ t = ⟨e, finalRoleOf role⟩ ∧ em = e := by
  have hfind : findUser
      (db.users ++ [⟨db.nextUserId, e, true, finalRoleOf role⟩]) e =
      some ⟨db.nextUserId, e, true, finalRoleOf role⟩ := by
    unfold findUser at hnone ⊢
    rw [List.find?_append, hnone]
    simp [List.find?]
  simp only [verifySuccess] at hvs
  rw [hnone] at hvs
  simp only [respondVerify] at hvs
  rw [hfind] at hvs
  simp only [Prod.mk.injEq, VerifyResult.ok.injEq, signToken] at hvs
  obtain ⟨⟨ht, hem, hro⟩, hdb⟩ := hvs
  rw [← hdb]
  exact ⟨rfl, hro.symm, ht.symm, hem.symm⟩

/-- Claim C10: the first successful verification for an email creates the
user with role viewer exactly when the requested role is the string
viewer, and with role sharer for every other value, a missing role
included. -/
theorem first_verify_role (now : Nat) (e c : String) (role : Option String)
    (db : DB) (t : Token) (em ro : String) (db1 : DB)
    (hnone : findUser db.users e = none)
    (h : verifyOtp now (some e) (some c) role db = (.ok t em ro, db1)) :
    ∃ u, findUser db1.users e = some u ∧
      (u.role = "viewer" ↔ role = some "viewer") ∧
      (role ≠ some "viewer" → u.role = "sharer") := by
  obtain ⟨he, hc, r, hlu, hexp, hcode, hvs⟩ := verifyOtp_ok_elim h
  obtain ⟨husers, hro, ht, hem⟩ := verifySuccess_new hnone hvs
  refine ⟨⟨db.nextUserId, e, true, finalRoleOf role⟩, ?_, ?_, ?_⟩
  · rw [husers]
    unfold findUser at hnone ⊢
    rw [List.find?_append, hnone]
    simp [List.find?]
  · by_cases hrole : role = some "viewer" <;> simp [finalRoleOf, hrole]
  · intro hrole
    simp [finalRoleOf, hrole]

/-- Witness for C10: a first verification requesting the viewer role stores
a viewer user. -/
theorem first_verify_role_witness :
    ∃ u, findUser
        ((verifyOtp 10 (some "a@b.com") (some "123456") (some "viewer")
          dbOneOtp).2).users "a@b.com" = some u ∧
      (u.role = "viewer" ↔ (some "viewer" : Option String) = some "viewer") ∧
      ((some "viewer" : Option String) ≠ some "viewer" → u.role = "sharer") :=
  first_verify_role 10 "a@b.com" "123456" (some "viewer") dbOneOtp
    ⟨"a@b.com", "viewer"⟩ "a@b.com" "viewer"
    ((verifyOtp 10 (some "a@b.com") (some "123456") (some "viewer") dbOneOtp).2)
    (by decide) (by decide)

/-- Success path of verify-otp on an email whose user row exists, is
verified and has a nonempty role: the user rows are left untouched and the
response repeats the stored role. -/
theorem verifySuccess_existing {e : String} {role : Option String}
    {r : OtpRecord} {db : DB} {t : Token} {em ro : String} {db1 : DB}
    {u : UserRec} (hu : findUser db.users e = some u)
    (hver : u.is_verified = true) (hrole : u.role ≠ "")
    (hvs : verifySuccess e role r db = (.ok t em ro, db1)) :
    db1.users = db.users ∧ ro = u.role ∧ t = ⟨u.email, u.role⟩ ∧ em = e := by
  have hrole' : (u.role == "") = false := by
    simp [hrole]
  simp only [verifySuccess] at hvs
  rw [hu] at hvs
  dsimp only at hvs
  rw [hrole', hver] at hvs
  simp only [Bool.false_eq_true, if_false, if_true, respondVerify] at hvs
  rw [hu] at hvs
  simp only [Prod.mk.injEq, VerifyResult.ok.injEq, signToken] at hvs
  obtain ⟨⟨ht, hem, hro⟩, hdb⟩ := hvs
  rw [← hdb]
  exact ⟨rfl, hro.symm, ht.symm, hem.symm⟩

/-- The final role is never the empty string. -/
theorem finalRoleOf_ne_empty (role : Option String) : finalRoleOf role ≠ "" := by
  by_cases h : role == some "viewer" <;> simp [finalRoleOf, h]

/-- Claim C3: when the first successful verification creates the user, a
later successful verification for the same email with a different
requested role answers with the original role, in the token and in the
user object, and the stored user row still carries the original role. -/
theorem verify_role_fixed_at_creation (n1 n2 : Nat) (e c1 c2 : String)
    (role1 role2 : Option String) (db : DB) (t1 t2 : Token)
    (em1 em2 ro1 ro2 : String) (db1 db2 : DB)
    (hnone : findUser db.users e = none) (_hdiff : role2 ≠ role1)
    (h1 : verifyOtp n1 (some e) (some c1) role1 db = (.ok t1 em1 ro1, db1))
    (h2 : verifyOtp n2 (some e) (some c2) role2 db1 = (.ok t2 em2 ro2, db2)) :
    ro1 = finalRoleOf role1 ∧ ro2 = ro1 ∧ t2.role = ro1 ∧
      ∃ u, findUser db2.users e = some u ∧ u.role = ro1 := by
  obtain ⟨-, -, r1, -, -, -, hvs1⟩ := verifyOtp_ok_elim h1
  obtain ⟨husers1, hro1, ht1, hem1⟩ := verifySuccess_new hnone hvs1
  have hfind1 : findUser db1.users e =
      some ⟨db.nextUserId, e, true, finalRoleOf role1⟩ := by
    rw [husers1]
    unfold findUser at hnone ⊢
    rw [List.find?_append, hnone]
    simp [List.find?]
  obtain ⟨-, -, r2, -, -, -, hvs2⟩ := verifyOtp_ok_elim h2
  obtain ⟨husers2, hro2, ht2, hem2⟩ :=
    verifySuccess_existing hfind1 rfl (finalRoleOf_ne_empty role1) hvs2
  refine ⟨hro1, ?_, ?_, ?_⟩
  · rw [hro2, hro1]
  · rw [ht2, hro1]
  · refine ⟨⟨db.nextUserId, e, true, finalRoleOf role1⟩, ?_, hro1.symm⟩
    rw [husers2, hfind1]

/-- Witness for C3: create a sharer user by verifying with no requested
role, then verify again requesting viewer; the role stays sharer. -/
theorem verify_role_fixed_at_creation_witness :
    "sharer" = finalRoleOf none ∧ "sharer" = "sharer" ∧ "sharer" = "sharer" ∧
      ∃ u, findUser
          ((verifyOtp 60 (some "a@b.com") (some "123456") (some "viewer")
            dbTwoOtps1).2).users "a@b.com" = some u ∧ u.role = "sharer" :=
  verify_role_fixed_at_creation 10 60 "a@b.com" "654321" "123456" none
    (some "viewer") dbTwoOtps ⟨"a@b.com", "sharer"⟩ ⟨"a@b.com", "sharer"⟩
    "a@b.com" "a@b.com" "sharer" "sharer" dbTwoOtps1
    ((verifyOtp 60 (some "a@b.com") (some "123456") (some "viewer") dbTwoOtps1).2)
    (by decide) (by decide) (by decide) (by decide)

/-- Claim C1: a successful verification consumes the looked-up record; in
the resulting state every row with that id is consumed, and a second
verification with the same code either finds no unconsumed row and answers
noOtpRequested, or operates on a row with a different id, so no record is
spent twice. -/
theorem otp_single_use (now : Nat) (e c : String) (role : Option String)
    (db : DB) (t : Token) (em ro : String) (db1 : DB)
    (h : verifyOtp now (some e) (some c) role db = (.ok t em ro, db1)) :
    ∃ r, latestUnconsumed db.otps e = some r ∧
      (∀ q ∈ db1.otps, q.id = r.id → q.consumed = true) ∧
      (∀ now2 role2,
        (latestUnconsumed db1.otps e = none ∧
          (verifyOtp now2 (some e) (some c) role2 db1).1 = .noOtpRequested) ∨
        (∃ q, latestUnconsumed db1.otps e = some q ∧ q.id ≠ r.id)) := by
  obtain ⟨he, hc, r, hlu, hexp, hcode, hvs⟩ := verifyOtp_ok_elim h
  have hotps : db1.otps = db.otps.map (consumeId r.id) := by
    have h2 := verifySuccess_otps e role r db
    rw [hvs] at h2
    exact h2
  refine ⟨r, hlu, ?_, ?_⟩
  · intro q hq hid
    rw [hotps] at hq
    obtain ⟨o, ho, rfl⟩ := List.mem_map.mp hq
    by_cases hoid : o.id = r.id
    · simp [consumeId, hoid]
    · simp only [consumeId, if_neg hoid] at hid ⊢
      exact absurd hid hoid
  · intro now2 role2
    cases hq : latestUnconsumed db1.otps e with
    | none =>
      exact Or.inl ⟨rfl, by simp [verifyOtp, he, hc, hq]⟩
    | some q =>
      refine Or.inr ⟨q, rfl, ?_⟩
      intro hid
      have hspec := latestUnconsumed_spec hq
      rw [hotps] at hspec
      obtain ⟨o, ho, hqo⟩ := List.mem_map.mp hspec.1
      by_cases hoid : o.id = r.id
      · have hcons : q.consumed = true := by
          rw [← hqo]
          simp [consumeId, hoid]
        rw [hspec.2.2] at hcons
        exact Bool.false_ne_true hcons
      · have hqid : q.id = o.id := by
          rw [← hqo]
          simp [consumeId, hoid]
        exact hoid (by rw [← hqid, hid])

/-- Witness for C1: after verifying the single fresh code, its row is
consumed and a repeat verification answers noOtpRequested. -/
theorem otp_single_use_witness :
    ∃ r, latestUnconsumed dbOneOtp.otps "a@b.com" = some r ∧
      (∀ q ∈ ((verifyOtp 10 (some "a@b.com") (some "123456") none
          dbOneOtp).2).otps, q.id = r.id → q.consumed = true) ∧
      (∀ now2 role2,
        (latestUnconsumed ((verifyOtp 10 (some "a@b.com") (some "123456") none
            dbOneOtp).2).otps "a@b.com" = none ∧
          (verifyOtp now2 (some "a@b.com") (some "123456") role2
            ((verifyOtp 10 (some "a@b.com") (some "123456") none
              dbOneOtp).2)).1 = .noOtpRequested) ∨
        (∃ q, latestUnconsumed ((verifyOtp 10 (some "a@b.com") (some "123456")
            none dbOneOtp).2).otps "a@b.com" = some q ∧ q.id ≠ r.id)) :=
  otp_single_use 10 "a@b.com" "123456" none dbOneOtp
    ⟨"a@b.com", "sharer"⟩ "a@b.com" "sharer"
    ((verifyOtp 10 (some "a@b.com") (some "123456") none dbOneOtp).2)
    (by decide)

/-- Setting granted leaves the unique key of a permission row unchanged. -/
theorem pairPred_set_granted (v s : String) (p : PermRec) :
    pairPred v s { p with granted := true } = pairPred v s p := rfl

/-- The upsert row update keeps the unique key. -/
theorem upsert_keeps_pred (v s : String) (p : PermRec) :
    pairPred v s (upsertRow v s p) = pairPred v s p := by
  by_cases h : pairPred v s p = true <;> simp [upsertRow, h, pairPred_set_granted]

/-- The upsert row update is idempotent. -/
theorem upsert_idem (v s : String) (p : PermRec) :
    upsertRow v s (upsertRow v s p) = upsertRow v s p := by
  by_cases h : pairPred v s p = true
  · simp [upsertRow, h, pairPred_set_granted]
  · simp [upsertRow, h]

/-- Claim C5: granting the same viewer twice from the same sharer succeeds
both times, the second call leaves the state of the first call unchanged,
and the state after the first call holds exactly one row for the pair,
with granted set; the uniqueness hypothesis mirrors the UNIQUE constraint
of the permissions table. -/
theorem grantPermission_idempotent (t1 t2 : Nat) (tok : Token) (v : String)
    (db : DB) (hs : tok.role = "sharer") (hv : v ≠ "")
    (huniq : (db.permissions.filter (pairPred v tok.email)).length ≤ 1) :
    (grantPermission t1 tok (some v) db).1 = .granted ∧
      (grantPermission t2 tok (some v) (grantPermission t1 tok (some v) db).2).1 =
        .granted ∧
      (grantPermission t2 tok (some v) (grantPermission t1 tok (some v) db).2).2 =
        (grantPermission t1 tok (some v) db).2 ∧
      (((grantPermission t1 tok (some v) db).2).permissions.filter
          (pairPred v tok.email)).length = 1 ∧
      ∀ p ∈ ((grantPermission t1 tok (some v) db).2).permissions.filter
          (pairPred v tok.email), p.granted = true := by
  cases hany : db.permissions.any (pairPred v tok.email) with
  | true =>
    have hg1 : grantPermission t1 tok (some v) db =
        (.granted, { db with permissions := db.permissions.map (upsertRow v tok.email) }) := by
      simp [grantPermission, hs, hv, hany]
    have hcomp : (pairPred v tok.email) ∘ (upsertRow v tok.email) = pairPred v tok.email :=
      funext (fun p => upsert_keeps_pred v tok.email p)
    have hany2 : (db.permissions.map (upsertRow v tok.email)).any
        (pairPred v tok.email) = true := by
      rw [List.any_map, hcomp]
      exact hany
    have hmapidem : (db.permissions.map (upsertRow v tok.email)).map
        (upsertRow v tok.email) = db.permissions.map (upsertRow v tok.email) := by
      rw [List.map_map]
      exact List.map_congr_left (fun p _ => upsert_idem v tok.email p)
    have hfil : (db.permissions.map (upsertRow v tok.email)).filter
          (pairPred v tok.email) =
        (db.permissions.filter (pairPred v tok.email)).map (upsertRow v tok.email) := by
      rw [List.filter_map, hcomp]
    have hlen : ((db.permissions.map (upsertRow v tok.email)).filter
        (pairPred v tok.email)).length = 1 := by
      rw [hfil, List.length_map]
      obtain ⟨x, hx, hPx⟩ := List.any_eq_true.mp hany
      have hxf : x ∈ db.permissions.filter (pairPred v tok.email) :=
        List.mem_filter.mpr ⟨hx, hPx⟩
      have := List.length_pos_of_mem hxf
      omega
    refine ⟨by rw [hg1], ?_, ?_, ?_, ?_⟩
    · rw [hg1]
      simp [grantPermission, hs, hv, hany2]
    · rw [hg1]
      simp [grantPermission, hs, hv, hany2, hmapidem]
    · rw [hg1]
      exact hlen
    · rw [hg1]
      intro p hp
      rw [hfil] at hp
      obtain ⟨o, ho, rfl⟩ := List.mem_map.mp hp
      have hPo : pairPred v tok.email o = true := (List.mem_filter.mp ho).2
      simp [upsertRow, hPo]
  | false =>
    have hnoneP : ∀ p ∈ db.permissions, pairPred v tok.email p = false := by
      intro p hp
      exact Bool.eq_false_iff.mpr (List.any_eq_false.mp hany p hp)
    have hg1 : grantPermission t1 tok (some v) db =
        (.granted, { db with
          permissions := db.permissions ++ [⟨db.nextPermId, v, tok.email, true, t1⟩],
          nextPermId := db.nextPermId + 1 }) := by
      simp [grantPermission, hs, hv, hany]
    have hPnew : pairPred v tok.email ⟨db.nextPermId, v, tok.email, true, t1⟩ = true := by
      simp [pairPred]
    have hany2 : (db.permissions ++ [(⟨db.nextPermId, v, tok.email, true, t1⟩ : PermRec)]).any
        (pairPred v tok.email) = true := by
      rw [List.any_append]
      simp [hPnew]
    have hmap1 : (db.permissions ++ [(⟨db.nextPermId, v, tok.email, true, t1⟩ : PermRec)]).map
        (upsertRow v tok.email) =
        db.permissions ++ [(⟨db.nextPermId, v, tok.email, true, t1⟩ : PermRec)] := by
      rw [List.map_append]
      have h1 : db.permissions.map (upsertRow v tok.email) = db.permissions := by
        have hc := List.map_congr_left (l := db.permissions)
          (f := upsertRow v tok.email) (g := id)
          (fun p hp => by simp [upsertRow, hnoneP p hp])
        rw [hc, List.map_id]
      have h2 : upsertRow v tok.email (⟨db.nextPermId, v, tok.email, true, t1⟩ : PermRec) =
          (⟨db.nextPermId, v, tok.email, true, t1⟩ : PermRec) := by
        simp [upsertRow, hPnew]
      rw [h1]
      simp [h2]
    have hfilnil : db.permissions.filter (pairPred v tok.email) = [] :=
      List.filter_eq_nil_iff.mpr
        (fun p hp => by simp [hnoneP p hp])
    refine ⟨by rw [hg1], ?_, ?_, ?_, ?_⟩
    · rw [hg1]
      simp [grantPermission, hs, hv, hany2]
    · rw [hg1]
      simp [grantPermission, hs, hv, hany2, hmap1]
    · rw [hg1]
      simp [List.filter_append, hfilnil, hPnew]
    · rw [hg1]
      intro p hp
      simp only [List.filter_append, hfilnil, List.nil_append] at hp
      rw [List.filter_cons_of_pos hPnew] at hp
      simp at hp
      rw [hp]

/-- Witness for C5: a sharer grants the same viewer twice starting from an
empty permissions table. -/
theorem grantPermission_idempotent_witness :
    (grantPermission 3 ⟨"s@x.com", "sharer"⟩ (some "v@y.com") emptyDB).1 = .granted ∧
      (grantPermission 9 ⟨"s@x.com", "sharer"⟩ (some "v@y.com")
        (grantPermission 3 ⟨"s@x.com", "sharer"⟩ (some "v@y.com") emptyDB).2).1 =
        .granted ∧
      (grantPermission 9 ⟨"s@x.com", "sharer"⟩ (some "v@y.com")
        (grantPermission 3 ⟨"s@x.com", "sharer"⟩ (some "v@y.com") emptyDB).2).2 =
        (grantPermission 3 ⟨"s@x.com", "sharer"⟩ (some "v@y.com") emptyDB).2 ∧
      (((grantPermission 3 ⟨"s@x.com", "sharer"⟩ (some "v@y.com") emptyDB).2).permissions.filter
          (pairPred "v@y.com" "s@x.com")).length = 1 ∧
      ∀ p ∈ ((grantPermission 3 ⟨"s@x.com", "sharer"⟩ (some "v@y.com") emptyDB).2).permissions.filter
          (pairPred "v@y.com" "s@x.com"), p.granted = true :=
  grantPermission_idempotent 3 9 ⟨"s@x.com", "sharer"⟩ "v@y.com" emptyDB
    (by decide) (by decide) (by decide)

/-- The location ordering is asymmetric. -/
theorem locBeats_asymm {x r : LocationRec} (h : locBeats x r = true) :
    locBeats r x = false := by
  simp only [locBeats, Bool.or_eq_true, Bool.and_eq_true, decide_eq_true_eq,
    beq_iff_eq] at h
  simp only [locBeats, Bool.or_eq_false_iff, Bool.and_eq_false_iff,
    decide_eq_false_iff_not, beq_eq_false_iff_ne, ne_eq]
  omega

/-- A row sorting strictly before every row of a list is the row selected
from the list with that row appended. -/
theorem latestLocation_append {l : List LocationRec} {x : LocationRec}
    (h : ∀ r ∈ l, locBeats x r = true) :
    latestLocation (l ++ [x]) = some x := by
  induction l with
  | nil => simp [latestLocation]
  | cons r rs ih =>
    have hr := h r (List.mem_cons_self r rs)
    have ih2 := ih (fun a ha => h a (List.mem_cons_of_mem r ha))
    simp only [List.cons_append, latestLocation, List.append_eq]
    rw [ih2]
    simp [locBeats_asymm hr]

/-- Claim C6: posting twice appends both rows, and a viewer with a granted
permission reads back the second pair of coordinates, the most recent row
by timestamp with ties broken by the larger insertion id; the hypotheses
say the clock does not run backwards and the id counter is fresh. -/
theorem post_twice_read_latest (t1 t2 : Nat) (tokS tokV : Token)
    (lat1 lng1 lat2 lng2 : Int) (db db1 db2 : DB)
    (hs : tokS.role = "sharer") (hvr : tokV.role = "viewer") (ht : t1 ≤ t2)
    (hold : ∀ r ∈ db.locations, r.updatedAt ≤ t2 ∧ r.id < db.nextLocId)
    (h1 : postLocation t1 tokS ⟨some lat1, some lng1, none⟩ db =
      (.locationSaved, db1))
    (h2 : postLocation t2 tokS ⟨some lat2, some lng2, none⟩ db1 =
      (.locationSaved, db2))
    (hperm : hasPermission db2.permissions tokV.email tokS.email = true) :
    (⟨db.nextLocId, tokS.email, lat1, lng1, t1⟩ : LocationRec) ∈ db2.locations ∧
      (⟨db.nextLocId + 1, tokS.email, lat2, lng2, t2⟩ : LocationRec) ∈ db2.locations ∧
      getLocation tokV tokS.email db2 = .found tokS.email lat2 lng2 t2 := by
  simp only [postLocation, hs, beq_self_eq_true, Bool.not_true,
    Bool.false_eq_true, if_false, Prod.mk.injEq, true_and] at h1 h2
  subst h1
  subst h2
  dsimp only at hperm ⊢
  refine ⟨by simp, by simp, ?_⟩
  have hfil : ((db.locations ++ [(⟨db.nextLocId, tokS.email, lat1, lng1, t1⟩ : LocationRec)]) ++
        [(⟨db.nextLocId + 1, tokS.email, lat2, lng2, t2⟩ : LocationRec)]).filter
        (fun r => r.email == tokS.email) =
      (db.locations.filter (fun r => r.email == tokS.email) ++
        [(⟨db.nextLocId, tokS.email, lat1, lng1, t1⟩ : LocationRec)]) ++
        [(⟨db.nextLocId + 1, tokS.email, lat2, lng2, t2⟩ : LocationRec)] := by
    simp [List.filter_append]
  have hbeats : ∀ r ∈ db.locations.filter (fun r => r.email == tokS.email) ++
      [(⟨db.nextLocId, tokS.email, lat1, lng1, t1⟩ : LocationRec)],
      locBeats ⟨db.nextLocId + 1, tokS.email, lat2, lng2, t2⟩ r = true := by
    intro r hr
    rcases List.mem_append.mp hr with hmem | hmem
    · have hr2 := hold r (List.mem_of_mem_filter hmem)
      simp only [locBeats, Bool.or_eq_true, Bool.and_eq_true, decide_eq_true_eq,
        beq_iff_eq]
      omega
    · have hr2 : r = ⟨db.nextLocId, tokS.email, lat1, lng1, t1⟩ := by
        simpa using hmem
      subst hr2
      simp only [locBeats, Bool.or_eq_true, Bool.and_eq_true, decide_eq_true_eq,
        beq_iff_eq]
      omega
  have hlatest := latestLocation_append hbeats
  simp only [getLocation, hvr, hperm, beq_self_eq_true, Bool.not_true,
    Bool.false_eq_true, if_false]
  rw [hfil, hlatest]

/-- A database with one grant from v@y.com toward s@x.com. -/
def dbOneGrant : DB :=
  { emptyDB with permissions := [⟨1, "v@y.com", "s@x.com", true, 0⟩], nextPermId := 2 }

/-- Witness for C6: the sharer posts twice and the viewer reads the second
coordinates. -/
theorem post_twice_read_latest_witness :
    (⟨dbOneGrant.nextLocId, "s@x.com", 10, 20, 5⟩ : LocationRec) ∈
        ((postLocation 6 ⟨"s@x.com", "sharer"⟩ ⟨some 11, some 21, none⟩
          (postLocation 5 ⟨"s@x.com", "sharer"⟩ ⟨some 10, some 20, none⟩
            dbOneGrant).2).2).locations ∧
      (⟨dbOneGrant.nextLocId + 1, "s@x.com", 11, 21, 6⟩ : LocationRec) ∈
        ((postLocation 6 ⟨"s@x.com", "sharer"⟩ ⟨some 11, some 21, none⟩
          (postLocation 5 ⟨"s@x.com", "sharer"⟩ ⟨some 10, some 20, none⟩
            dbOneGrant).2).2).locations ∧
      getLocation ⟨"v@y.com", "viewer"⟩ "s@x.com"
          ((postLocation 6 ⟨"s@x.com", "sharer"⟩ ⟨some 11, some 21, none⟩
            (postLocation 5 ⟨"s@x.com", "sharer"⟩ ⟨some 10, some 20, none⟩
              dbOneGrant).2).2) = .found "s@x.com" 11 21 6 :=
  post_twice_read_latest 5 6 ⟨"s@x.com", "sharer"⟩ ⟨"v@y.com", "viewer"⟩
    10 20 11 21 dbOneGrant
    ((postLocation 5 ⟨"s@x.com", "sharer"⟩ ⟨some 10, some 20, none⟩ dbOneGrant).2)
    ((postLocation 6 ⟨"s@x.com", "sharer"⟩ ⟨some 11, some 21, none⟩
      (postLocation 5 ⟨"s@x.com", "sharer"⟩ ⟨some 10, some 20, none⟩
        dbOneGrant).2).2)
    (by decide) (by decide) (by decide)
    (by intro r hr; simp [dbOneGrant, emptyDB] at hr)
    (by decide) (by decide) (by decide)

end Tracker
